import Mathlib

/-!
Verification of the extension-session bootstrap and service-worker
discovery harness (two scripts: the verification run and the debug run).

Strings are modelled as lists of characters.  The Python builtin
str.split with a single-character separator and no limit is embedded as
pySplitChars; machine behaviour such as list indexing that can raise
IndexError is embedded as Option-valued lookup.  The browser-automation
wait (wait_for_event with a millisecond timeout) is modelled as a
single-shot, timeout-bounded subscription: the session carries an
optional registration event with an arrival time, and the wait resolves
with the event when it arrives strictly before the timeout, otherwise
it fails after exactly the timeout has elapsed.
-/

abbrev Str := List Char

/-- Embedding of the Python str.split method for a one-character
separator: splitting the empty string yields one empty field, and each
occurrence of the separator starts a new field. -/
def pySplitChars (sep : Char) : List Char → List (List Char)
  | [] => [[]]
  | c :: cs =>
    let r := pySplitChars sep cs
    if c = sep then [] :: r
    else (c :: r.headI) :: r.tail

/-- Occurrence count of a character in a string. -/
def countChar (c : Char) : List Char → Nat
  | [] => 0
  | d :: rest => (if d = c then 1 else 0) + countChar c rest


/-!
Session model.  A session records the service workers already
registered when discovery begins (their URLs, in registration order)
and the optional later registration event, given by its arrival time in
milliseconds after the wait begins and the URL of the worker it
delivers.  This is the single-shot, timeout-bounded subscription of the
browser-automation interface the harness consumes.
-/

structure Session where
  service_workers : List Str
  workerEvent : Option (Nat × Str)

/-- Result of waiting for a service worker: the worker URL together
with the elapsed wait in milliseconds, or a timeout failure carrying
the elapsed wait at which it fired. -/
inductive WorkerResult where
  | ok (elapsedMs : Nat) (url : Str)
  | timeout (elapsedMs : Nat)
deriving DecidableEq, Repr

/-- Embedding of wait_for_event with a millisecond timeout: the event
resolves the wait when it arrives strictly before the timeout,
otherwise the wait fails after exactly timeoutMs. -/
def waitForEvent (ev : Option (Nat × Str)) (timeoutMs : Nat) : WorkerResult :=
  match ev with
  | some (t, url) => if t < timeoutMs then .ok t url else .timeout timeoutMs
  | none => .timeout timeoutMs

/-- Embedding of the worker-discovery step of the verification run:
if context.service_workers is non-empty take its first element without
waiting (elapsed zero), otherwise wait for the serviceworker event. -/
def resolveWorker (s : Session) (timeoutMs : Nat) : WorkerResult :=
  match s.service_workers with
  | url :: _ => .ok 0 url
  | [] => waitForEvent s.workerEvent timeoutMs

/-- Embedding of service_worker.url.split('/')[2]: split on the slash
character and index at position 2; none models the IndexError raised
when the split has fewer than three fields. -/
def parseExtensionId (url : Str) : Option Str :=
  (pySplitChars '/' url)[2]?

/-- Result of the combined discovery-and-parse step. -/
inductive IdResult where
  | ok (elapsedMs : Nat) (extensionId : Str)
  | timeout (elapsedMs : Nat)
  | indexError (elapsedMs : Nat)
deriving DecidableEq, Repr

/-- The discovery protocol of the verification run: take the first
already-registered worker if any, otherwise wait for the registration
event, then parse the extension identifier out of the worker URL. -/
def resolveExtensionIdentity (s : Session) (timeoutMs : Nat) : IdResult :=
  match resolveWorker s timeoutMs with
  | .ok e url =>
    match parseExtensionId url with
    | some i => .ok e i
    | none => .indexError e
  | .timeout e => .timeout e

/-- The fixed scheme and separator the verification run composes
in-extension URLs from. -/
def chromeExtScheme : Str := "chrome-extension://".toList

/-- Embedding of the navigation f-string of the verification run:
the fixed scheme, the identifier and the relative path concatenated
with a single slash between identifier and path. -/
def extensionPageUrl (extensionId relPath : Str) : Str :=
  chromeExtScheme ++ extensionId ++ '/' :: relPath

def triagePage : Str := "triage_hub.html".toList

def notePage : Str := "note.html".toList

def triageShot : Str := "jules-scratch/verification/triage_hub_ext.png".toList

def noteShot : Str := "jules-scratch/verification/note_ext.png".toList

/-!
Run traces.  Each script is embedded as a function from an environment
(the session plus which navigations and captures fail) to the list of
actions it performs, in order, together with its outcome: none for a
normal return, or the error that propagated out of the run.  A Python
exception aborts the straight-line sequence at the point it is raised,
so every action after the failing one is absent from the trace.
-/

inductive RunAction where
  | waitForWorker
  | newPage
  | goto (url : Str)
  | screenshot (path : Str)
  | printFound
  | printWorkerUrl (url : Str)
  | printWaitError
  | close
deriving DecidableEq, Repr

inductive RunError where
  | serviceWorkerTimeout
  | indexError
  | navigationFailure (url : Str)
  | captureFailure (path : Str)
deriving DecidableEq, Repr

structure RunResult where
  trace : List RunAction
  outcome : Option RunError
deriving DecidableEq, Repr

structure Env where
  session : Session
  gotoFails : Str → Bool
  screenshotFails : Str → Bool

/-- Embedding of run in verify_extension.py.  The worker check, the
wait (only when no worker is already present), the identifier parse,
page creation, two navigate-and-capture pairs and the close happen in
program order; the first failing step raises, and the raised error
propagates out of the run with no further action, in particular with no
close. -/
def runVerify (env : Env) (timeoutMs : Nat) : RunResult :=
  let preTrace : List RunAction :=
    if env.session.service_workers.isEmpty then [.waitForWorker] else []
  match resolveExtensionIdentity env.session timeoutMs with
  | .timeout _ => ⟨preTrace, some .serviceWorkerTimeout⟩
  | .indexError _ => ⟨preTrace, some .indexError⟩
  | .ok _ i =>
    let u1 := extensionPageUrl i triagePage
    let u2 := extensionPageUrl i notePage
    if env.gotoFails u1 then
      ⟨preTrace ++ [.newPage, .goto u1], some (.navigationFailure u1)⟩
    else if env.screenshotFails triageShot then
      ⟨preTrace ++ [.newPage, .goto u1, .screenshot triageShot],
        some (.captureFailure triageShot)⟩
    else if env.gotoFails u2 then
      ⟨preTrace ++ [.newPage, .goto u1, .screenshot triageShot, .goto u2],
        some (.navigationFailure u2)⟩
    else if env.screenshotFails noteShot then
      ⟨preTrace ++ [.newPage, .goto u1, .screenshot triageShot, .goto u2,
          .screenshot noteShot],
        some (.captureFailure noteShot)⟩
    else
      ⟨preTrace ++ [.newPage, .goto u1, .screenshot triageShot, .goto u2,
          .screenshot noteShot, .close],
        none⟩

/-- Embedding of run in debug_worker.py: wait for the serviceworker
event with a 15000 ms timeout inside try, print the diagnostic messages
on success, print the wait error inside except, and close inside
finally; the run itself always returns normally. -/
def runDebug (s : Session) (timeoutMs : Nat) : RunResult :=
  match waitForEvent s.workerEvent timeoutMs with
  | .ok _ url => ⟨[.waitForWorker, .printFound, .printWorkerUrl url, .close], none⟩
  | .timeout _ => ⟨[.waitForWorker, .printWaitError, .close], none⟩

/-- Number of close actions in a trace. -/
def countClose : List RunAction → Nat
  | [] => 0
  | .close :: rest => countClose rest + 1
  | _ :: rest => countClose rest

/-- The navigation targets of a trace, in order. -/
def gotoUrls : List RunAction → List Str
  | [] => []
  | .goto u :: rest => u :: gotoUrls rest
  | _ :: rest => gotoUrls rest

/-- The screenshot output paths of a trace, in order. -/
def screenshotPaths : List RunAction → List Str
  | [] => []
  | .screenshot p :: rest => p :: screenshotPaths rest
  | _ :: rest => screenshotPaths rest

/-- Adjacent double slash detector, for the URL well-formedness
property. -/
def hasDoubleSlash : List Char → Bool
  | c1 :: c2 :: rest => (c1 = '/' && c2 = '/') || hasDoubleSlash (c2 :: rest)
  | _ => false

/-- A service-worker URL of the shape the browser assigns, used as a
concrete sample input. -/
def swUrlEx : Str := "chrome-extension://abcdefgh/background.js".toList

/-- The identifier carried by swUrlEx. -/
def extIdEx : Str := "abcdefgh".toList

/-- The URL of the fixed form scheme://identifier/path, assembled from
its three parts. -/
def urlOfParts (scheme i path : Str) : Str :=
  scheme ++ ':' :: '/' :: '/' :: (i ++ '/' :: path)

/-- Environment in which discovery and every navigation and capture
succeed. -/
def goodEnv : Env := ⟨⟨[swUrlEx], none⟩, fun _ => false, fun _ => false⟩

/-- Environment in which discovery succeeds but every navigation
raises. -/
def badNavEnv : Env := ⟨⟨[swUrlEx], none⟩, fun _ => true, fun _ => false⟩

/-!
Basic facts about the split embedding, checked also on concrete
inputs.
-/

theorem pySplitChars_ne_nil (sep : Char) (l : List Char) :
    pySplitChars sep l ≠ [] := by
  cases l with
  | nil => simp [pySplitChars]
  | cons c cs =>
    simp only [pySplitChars]
    by_cases h : c = sep <;> simp [h]

theorem pySplitChars_eq_headI_cons_tail (sep : Char) (l : List Char) :
    pySplitChars sep l =
      (pySplitChars sep l).headI :: (pySplitChars sep l).tail := by
  cases h : pySplitChars sep l with
  | nil => exact absurd h (pySplitChars_ne_nil sep l)
  | cons w ws => simp

theorem pySplitChars_cons_sep (sep : Char) (l : List Char) :
    pySplitChars sep (sep :: l) = [] :: pySplitChars sep l := by
  simp [pySplitChars]

theorem pySplitChars_append_of_not_mem (sep : Char) (xs l : List Char)
    (h : sep ∉ xs) :
    pySplitChars sep (xs ++ l) =
      (xs ++ (pySplitChars sep l).headI) :: (pySplitChars sep l).tail := by
  induction xs with
  | nil =>
    simpa using pySplitChars_eq_headI_cons_tail sep l
  | cons c cs ih =>
    have hc : c ≠ sep := by
      intro hcs; exact h (by simp [hcs])
    have hcs : sep ∉ cs := by
      intro hm; exact h (by simp [hm])
    simp only [List.cons_append, pySplitChars, if_neg hc, List.append_eq]
    rw [ih hcs]
    simp

theorem length_pySplitChars (sep : Char) (l : List Char) :
    (pySplitChars sep l).length = countChar sep l + 1 := by
  induction l with
  | nil => simp [pySplitChars, countChar]
  | cons c cs ih =>
    simp only [pySplitChars, countChar]
    by_cases h : c = sep
    · simp [h, ih, Nat.add_comm]
    · have hne : c ≠ sep := h
      have htl := pySplitChars_eq_headI_cons_tail sep cs
      simp only [if_neg hne]
      have : ((c :: (pySplitChars sep cs).headI) :: (pySplitChars sep cs).tail).length
          = (pySplitChars sep cs).tail.length + 1 := by simp
      rw [this]
      have hlen : (pySplitChars sep cs).length = (pySplitChars sep cs).tail.length + 1 := by
        conv_lhs => rw [htl]
        simp
      omega

example : pySplitChars '/' "chrome-extension://abc/p.html".toList =
    ["chrome-extension:".toList, [], "abc".toList, "p.html".toList] := by decide

example : pySplitChars '/' "".toList = [[]] := by decide

example : pySplitChars '/' "/".toList = [[], []] := by decide

example : pySplitChars '/' "a//b".toList = [['a'], [], ['b']] := by decide

/-!
Helper lemmas about the split of a well-formed URL and about traces.
-/

theorem pySplitChars_url_parts (scheme i path : Str)
    (hs : '/' ∉ scheme) (hi : '/' ∉ i) :
    pySplitChars '/' (urlOfParts scheme i path)
      = (scheme ++ [':']) :: [] :: i :: pySplitChars '/' path := by
  have hA : '/' ∉ scheme ++ [':'] := by
    intro hmem
    rcases List.mem_append.1 hmem with h1 | h1
    · exact hs h1
    · simp at h1
  have hshape : urlOfParts scheme i path
      = (scheme ++ [':']) ++ '/' :: '/' :: (i ++ '/' :: path) := by
    simp [urlOfParts]
  rw [hshape, pySplitChars_append_of_not_mem _ _ _ hA,
    pySplitChars_cons_sep, pySplitChars_cons_sep,
    pySplitChars_append_of_not_mem _ _ _ hi, pySplitChars_cons_sep]
  simp

theorem countClose_append (a b : List RunAction) :
    countClose (a ++ b) = countClose a + countClose b := by
  induction a with
  | nil => simp [countClose]
  | cons x xs ih =>
    cases x <;> simp [countClose, ih]
    omega

theorem hasDoubleSlash_append_of_not_mem (xs l : List Char)
    (h : '/' ∉ xs) :
    hasDoubleSlash (xs ++ l) = hasDoubleSlash l := by
  induction xs with
  | nil => rfl
  | cons c cs ih =>
    have hc : c ≠ '/' := fun hcc => h (by simp [hcc])
    have hcs : '/' ∉ cs := fun hm => h (by simp [hm])
    cases cs with
    | nil =>
      cases l with
      | nil => simp [hasDoubleSlash]
      | cons b bs => simp [hasDoubleSlash, hc]
    | cons c2 cs2 =>
      have hstep : hasDoubleSlash (c :: c2 :: (cs2 ++ l))
          = ((decide (c = '/') && decide (c2 = '/')) || hasDoubleSlash (c2 :: (cs2 ++ l))) := rfl
      simp only [List.cons_append] at ih ⊢
      rw [hstep, ih hcs]
      simp [hc]

/-!
Sanity checks of the embedding on concrete runs.
-/

example : runDebug ⟨[], none⟩ 15000
    = ⟨[.waitForWorker, .printWaitError, .close], none⟩ := by decide

example : (runVerify goodEnv 30000).outcome = none := by decide

example : countClose (runVerify badNavEnv 30000).trace = 0 := by decide

/-!
The claims.
-/

/-- C1: discovery first checks the already-registered service workers
of the session without blocking; only when that enumeration is empty
does it fall back to the event wait, and a worker present at the start
of discovery is returned with zero elapsed wait, whatever the pending
event and the timeout are. -/
theorem resolveIdentity_prefers_present_worker (w : Str) (rest : List Str)
    (ev : Option (Nat × Str)) (timeoutMs : Nat) :
    resolveWorker ⟨w :: rest, ev⟩ timeoutMs = .ok 0 w
    ∧ resolveWorker ⟨[], ev⟩ timeoutMs = waitForEvent ev timeoutMs
    ∧ ∀ i, parseExtensionId w = some i →
        resolveExtensionIdentity ⟨w :: rest, ev⟩ timeoutMs = .ok 0 i := by
  refine ⟨rfl, rfl, ?_⟩
  intro i hi
  simp [resolveExtensionIdentity, resolveWorker, hi]

/-- Witness for C1: with a worker already present, a pending event far
beyond the 5 ms timeout is never consulted and the identity comes back
with zero elapsed wait. -/
theorem resolveIdentity_prefers_present_worker_witness :
    parseExtensionId swUrlEx = some extIdEx
    ∧ resolveExtensionIdentity ⟨[swUrlEx], some (99999, "other".toList)⟩ 5
        = .ok 0 extIdEx :=
  ⟨by decide,
    (resolveIdentity_prefers_present_worker swUrlEx []
      (some (99999, "other".toList)) 5).2.2 extIdEx (by decide)⟩

/-- C2: when no service worker ever registers the discovery fails with
the timeout outcome, and every timeout outcome of discovery carries an
elapsed wait of exactly timeoutMs, never less. -/
theorem resolveIdentity_timeout_exact (ws : List Str)
    (ev : Option (Nat × Str)) (timeoutMs e : Nat) :
    resolveExtensionIdentity ⟨[], none⟩ timeoutMs = .timeout timeoutMs
    ∧ (resolveExtensionIdentity ⟨ws, ev⟩ timeoutMs = .timeout e →
        e = timeoutMs) := by
  constructor
  · rfl
  · intro h
    unfold resolveExtensionIdentity resolveWorker waitForEvent at h
    cases ws with
    | cons w rest =>
      cases hp : parseExtensionId w <;> simp [hp] at h
    | nil =>
      cases ev with
      | none =>
        simp at h
        omega
      | some te =>
        rcases te with ⟨t, u⟩
        by_cases ht : t < timeoutMs
        · cases hp : parseExtensionId u <;> simp [ht, hp] at h
        · simp [ht] at h
          omega

/-- Witness for C2: with an empty worker list and no event, discovery
with a 15000 ms bound times out with exactly 15000 ms elapsed. -/
theorem resolveIdentity_timeout_exact_witness :
    resolveExtensionIdentity ⟨[], none⟩ 15000 = .timeout 15000
    ∧ (15000 : Nat) = 15000 :=
  ⟨(resolveIdentity_timeout_exact [] none 15000 15000).1,
    (resolveIdentity_timeout_exact [] none 15000 15000).2 (by decide)⟩

/-- C4: for every URL of the fixed form scheme://identifier/path the
split on the slash character is the scheme-with-colon token, the empty
token before the leading double slash, the identifier, and the split of
the path; indexing at position 2 therefore extracts exactly the
authority component. -/
theorem parse_extracts_authority (scheme i path : Str)
    (hs : '/' ∉ scheme) (hi : '/' ∉ i) :
    pySplitChars '/' (urlOfParts scheme i path)
      = (scheme ++ [':']) :: [] :: i :: pySplitChars '/' path
    ∧ parseExtensionId (urlOfParts scheme i path) = some i := by
  have hsplit := pySplitChars_url_parts scheme i path hs hi
  refine ⟨hsplit, ?_⟩
  unfold parseExtensionId
  rw [hsplit]
  simp

/-- Witness for C4 at a concrete service-worker URL. -/
theorem parse_extracts_authority_witness :
    pySplitChars '/' (urlOfParts "chrome-extension".toList extIdEx
        "background.js".toList)
      = ("chrome-extension".toList ++ [':']) :: [] :: extIdEx
          :: pySplitChars '/' "background.js".toList
    ∧ parseExtensionId (urlOfParts "chrome-extension".toList extIdEx
        "background.js".toList) = some extIdEx :=
  parse_extracts_authority "chrome-extension".toList extIdEx
    "background.js".toList (by decide) (by decide)

/-- C8: composing the in-extension URL from an identifier free of
slashes and any relative path, then splitting on the slash character
and indexing at position 2, returns exactly the original identifier. -/
theorem compose_parse_roundtrip (i path : Str) (hi : '/' ∉ i) :
    parseExtensionId (extensionPageUrl i path) = some i := by
  have hshape : extensionPageUrl i path
      = urlOfParts "chrome-extension".toList i path := by
    have hpre : chromeExtScheme
        = "chrome-extension".toList ++ ':' :: '/' :: '/' :: [] := by decide
    simp [extensionPageUrl, urlOfParts, hpre]
  rw [hshape]
  exact (parse_extracts_authority "chrome-extension".toList i path
    (by decide) hi).2

/-- Witness for C8 at a concrete identifier and a relative path that
itself contains a slash. -/
theorem compose_parse_roundtrip_witness :
    parseExtensionId (extensionPageUrl extIdEx "pages/note.html".toList)
      = some extIdEx :=
  compose_parse_roundtrip extIdEx "pages/note.html".toList (by decide)

/-- C9: the identifier parse is partial: indexing the split at
position 2 yields a value exactly when the URL contains at least two
slash characters, and has no result at all otherwise. -/
theorem parse_partial_two_slashes (url : Str) :
    (parseExtensionId url).isSome = true ↔ 2 ≤ countChar '/' url := by
  unfold parseExtensionId
  have hlen := length_pySplitChars '/' url
  constructor
  · intro h
    by_contra hnot
    have hle : (pySplitChars '/' url).length ≤ 2 := by omega
    have : (pySplitChars '/' url)[2]? = none := by
      exact List.getElem?_eq_none hle
    simp [this] at h
  · intro h
    have hlt : 2 < (pySplitChars '/' url).length := by omega
    simp [List.getElem?_eq_getElem hlt]

/-- C5: for a resolved identifier (non-empty, slash-free) and a
non-empty relative path that does not itself start with a slash or
contain a double slash, the composed navigation target is exactly the
scheme, the identifier and the relative path joined by the fixed
separators, and the part after the scheme separator contains no double
slash and does not start with a slash. -/
theorem navigate_url_exact_compose (i path : Str)
    (hi : '/' ∉ i) (hi0 : i ≠ [])
    (hp0 : path ≠ []) (hph : path.head? ≠ some '/')
    (hpd : hasDoubleSlash path = false) :
    extensionPageUrl i path
      = "chrome-extension://".toList ++ i ++ '/' :: path
    ∧ hasDoubleSlash (i ++ '/' :: path) = false
    ∧ (i ++ '/' :: path).head? ≠ some '/' := by
  refine ⟨rfl, ?_, ?_⟩
  · rw [hasDoubleSlash_append_of_not_mem i ('/' :: path) hi]
    cases path with
    | nil => exact absurd rfl hp0
    | cons b bs =>
      have hb : b ≠ '/' := by
        intro hbe
        exact hph (by simp [hbe])
      have hstep : hasDoubleSlash ('/' :: b :: bs)
          = ((decide (('/' : Char) = '/') && decide (b = '/'))
              || hasDoubleSlash (b :: bs)) := rfl
      rw [hstep, hpd]
      simp [hb]
  · cases i with
    | nil => exact absurd rfl hi0
    | cons a as =>
      have ha : a ≠ '/' := fun hae => hi (by simp [hae])
      simp [ha]

/-- Witness for C5 at the identifier and the first entry page of the
verification run. -/
theorem navigate_url_exact_compose_witness :
    extensionPageUrl extIdEx triagePage
      = "chrome-extension://".toList ++ extIdEx ++ '/' :: triagePage
    ∧ hasDoubleSlash (extIdEx ++ '/' :: triagePage) = false
    ∧ (extIdEx ++ '/' :: triagePage).head? ≠ some '/' :=
  navigate_url_exact_compose extIdEx triagePage (by decide) (by decide)
    (by decide) (by decide) (by decide)

/-- Counterexample to C3 as stated: in the verification run, when the
first navigation raises, the error propagates out of the run and the
close action never happens, so close is not invoked on this exit
path. -/
theorem close_skipped_on_navigation_failure :
    (runVerify badNavEnv 30000).outcome
      = some (RunError.navigationFailure (extensionPageUrl extIdEx triagePage))
    ∧ countClose (runVerify badNavEnv 30000).trace = 0 := by decide

/-- C3 amended: the debug run closes the session exactly once on every
exit path; the verification run closes it exactly once when it returns
normally and not at all when any intermediate step raises. -/
theorem close_exactly_once_iff_normal (s : Session) (env : Env)
    (timeoutMs : Nat) :
    countClose (runDebug s timeoutMs).trace = 1
    ∧ countClose (runVerify env timeoutMs).trace
        = (if (runVerify env timeoutMs).outcome = none then 1 else 0) := by
  constructor
  · unfold runDebug
    cases h : waitForEvent s.workerEvent timeoutMs <;> simp [countClose]
  · unfold runVerify
    cases h : resolveExtensionIdentity env.session timeoutMs with
    | timeout e =>
      by_cases hw : env.session.service_workers.isEmpty <;>
        simp [hw, countClose]
    | indexError e =>
      by_cases hw : env.session.service_workers.isEmpty <;>
        simp [hw, countClose]
    | ok e i =>
      by_cases hw : env.session.service_workers.isEmpty <;>
        by_cases h1 : env.gotoFails (extensionPageUrl i triagePage) <;>
        by_cases h2 : env.screenshotFails triageShot <;>
        by_cases h3 : env.gotoFails (extensionPageUrl i notePage) <;>
        by_cases h4 : env.screenshotFails noteShot <;>
        simp [hw, h1, h2, h3, h4, countClose, countClose_append]

/-- C6: whenever the verification run returns normally, its trace
contains exactly the two screenshot captures, to the triage-hub output
path then to the note output path, and the close of the session is the
last action of the run. -/
theorem successful_run_two_screenshots (env : Env) (timeoutMs : Nat)
    (h : (runVerify env timeoutMs).outcome = none) :
    screenshotPaths (runVerify env timeoutMs).trace = [triageShot, noteShot]
    ∧ (runVerify env timeoutMs).trace.getLast? = some RunAction.close := by
  unfold runVerify at h ⊢
  cases hr : resolveExtensionIdentity env.session timeoutMs with
  | timeout e =>
    rw [hr] at h
    simp at h
  | indexError e =>
    rw [hr] at h
    simp at h
  | ok e i =>
    rw [hr] at h
    by_cases h1 : env.gotoFails (extensionPageUrl i triagePage)
    · simp [h1] at h
    by_cases h2 : env.screenshotFails triageShot
    · simp [h1, h2] at h
    by_cases h3 : env.gotoFails (extensionPageUrl i notePage)
    · simp [h1, h2, h3] at h
    by_cases h4 : env.screenshotFails noteShot
    · simp [h1, h2, h3, h4] at h
    by_cases hw : env.session.service_workers.isEmpty <;>
      simp [h1, h2, h3, h4, hw, screenshotPaths,
        List.getLast?_cons_cons, List.getLast?_singleton]

/-- Witness for C6: a run in which a worker is present and every step
succeeds returns normally, captures the two screenshots and ends with
the close. -/
theorem successful_run_two_screenshots_witness :
    (runVerify goodEnv 30000).outcome = none
    ∧ (screenshotPaths (runVerify goodEnv 30000).trace
          = [triageShot, noteShot]
        ∧ (runVerify goodEnv 30000).trace.getLast?
          = some RunAction.close) :=
  ⟨by decide, successful_run_two_screenshots goodEnv 30000 (by decide)⟩

/-- C7: whenever the verification run returns normally there is a
single identifier, parsed from the worker the session itself delivered,
and the navigation targets of the whole run are exactly the two pages
composed from that one identifier; the identifier is a function of the
session observed in this run and of nothing else. -/
theorem single_identity_all_navigations (env : Env) (timeoutMs : Nat)
    (h : (runVerify env timeoutMs).outcome = none) :
    ∃ e url i,
      resolveWorker env.session timeoutMs = .ok e url
      ∧ parseExtensionId url = some i
      ∧ gotoUrls (runVerify env timeoutMs).trace
          = [extensionPageUrl i triagePage, extensionPageUrl i notePage] := by
  cases hw : resolveWorker env.session timeoutMs with
  | timeout e =>
    have hid : resolveExtensionIdentity env.session timeoutMs = .timeout e := by
      simp [resolveExtensionIdentity, hw]
    unfold runVerify at h
    simp [hid] at h
  | ok e url =>
    cases hp : parseExtensionId url with
    | none =>
      have hid : resolveExtensionIdentity env.session timeoutMs
          = .indexError e := by
        simp [resolveExtensionIdentity, hw, hp]
      unfold runVerify at h
      simp [hid] at h
    | some i =>
      have hid : resolveExtensionIdentity env.session timeoutMs = .ok e i := by
        simp [resolveExtensionIdentity, hw, hp]
      refine ⟨e, url, i, rfl, hp, ?_⟩
      unfold runVerify at h ⊢
      rw [hid] at h ⊢
      by_cases h1 : env.gotoFails (extensionPageUrl i triagePage)
      · simp [h1] at h
      by_cases h2 : env.screenshotFails triageShot
      · simp [h1, h2] at h
      by_cases h3 : env.gotoFails (extensionPageUrl i notePage)
      · simp [h1, h2, h3] at h
      by_cases h4 : env.screenshotFails noteShot
      · simp [h1, h2, h3, h4] at h
      by_cases hw2 : env.session.service_workers.isEmpty <;>
        simp [h1, h2, h3, h4, hw2, gotoUrls]

/-- Witness for C7: in the all-success run the two navigation targets
are composed from the one identifier parsed from the observed worker
URL. -/
theorem single_identity_all_navigations_witness :
    (runVerify goodEnv 30000).outcome = none
    ∧ ∃ e url i,
        resolveWorker goodEnv.session 30000 = .ok e url
        ∧ parseExtensionId url = some i
        ∧ gotoUrls (runVerify goodEnv 30000).trace
            = [extensionPageUrl i triagePage, extensionPageUrl i notePage] :=
  ⟨by decide, single_identity_all_navigations goodEnv 30000 (by decide)⟩

/-- C10: the debug run always returns normally; a wait failure is
caught inside the run and reported by the diagnostic print, and the
close happens exactly once, as the last action, on every path. -/
theorem debug_wait_failure_contained (s : Session) (timeoutMs e : Nat) :
    (runDebug s timeoutMs).outcome = none
    ∧ countClose (runDebug s timeoutMs).trace = 1
    ∧ (runDebug s timeoutMs).trace.getLast? = some RunAction.close
    ∧ (waitForEvent s.workerEvent timeoutMs = .timeout e →
        RunAction.printWaitError ∈ (runDebug s timeoutMs).trace) := by
  unfold runDebug
  cases hv : waitForEvent s.workerEvent timeoutMs with
  | ok a b =>
    simp [countClose, List.getLast?_cons_cons, List.getLast?_singleton]
  | timeout a =>
    simp [countClose, List.getLast?_cons_cons, List.getLast?_singleton]

/-- Witness for C10: with no event at all the 15000 ms wait fails, the
failure is reported by the diagnostic print inside the run. -/
theorem debug_wait_failure_contained_witness :
    waitForEvent (Session.mk [] none).workerEvent 15000
      = WorkerResult.timeout 15000
    ∧ RunAction.printWaitError ∈ (runDebug ⟨[], none⟩ 15000).trace :=
  ⟨by decide,
    (debug_wait_failure_contained ⟨[], none⟩ 15000 15000).2.2.2 (by decide)⟩
